import Mathlib

/-!
Shallow embedding of the DNS-resolution fallback module
(`codex-rs/core/src/dns_fallback.rs`) and verification of its
natural-language specification.

The Rust module detects a Termux/Android environment, builds a resolver
configuration (system configuration, else a parsed `$PREFIX/etc/resolv.conf`,
else a hardcoded public resolver), and adapts an async DNS client to the
HTTP client's resolver interface.

Modelling conventions:
* Rust `&str` values are modelled as `String` at the API boundary and as
  `List Char` inside the line-level helpers.
* Machine integers (`u8`, `u16` in IP parsing, ports) are `Nat` with explicit
  bounds enforced exactly where the Rust code enforces them.
* I/O outcomes (reading the system configuration, reading the fallback file,
  a DNS lookup) are passed in explicitly: `Result` becomes `Option`/`Except`.
* `std::net::IpAddr::from_str` (the parser used by the module via
  `parse::<IpAddr>()`) is embedded following the algorithm of Rust's
  `core::net::parser` (numeric octet/group readers with backtracking,
  IPv4-in-IPv6 embedding, whole-input consumption).
-/

/-- Transport protocol of a nameserver entry
(`hickory_resolver::proto::xfer::Protocol`, the two variants used here). -/
inductive Protocol where
  | udp
  | tcp
deriving DecidableEq, Repr

/-- An IP address: either IPv4 (four octets) or IPv6 (eight 16-bit groups,
kept as a list). -/
inductive IpAddr where
  | v4 (a b c d : Nat)
  | v6 (groups : List Nat)
deriving DecidableEq, Repr

/-- Embeds `std::net::SocketAddr`: an IP address plus a port. -/
structure SocketAddr where
  ip : IpAddr
  port : Nat
deriving DecidableEq, Repr

/-- Embeds `hickory_resolver::config::NameServerConfig`: the fields this module
reads and writes (socket address and transport protocol). -/
structure NameServerConfig where
  socket_addr : SocketAddr
  protocol : Protocol
deriving DecidableEq, Repr

/-- Embeds `NameServerConfig::new(socket_addr, protocol)`. -/
def NameServerConfig.new (socket_addr : SocketAddr) (protocol : Protocol) :
    NameServerConfig :=
  ⟨socket_addr, protocol⟩

/-- Embeds `hickory_resolver::config::ResolverConfig`: the ordered nameserver list
(the only component this module manipulates). -/
structure ResolverConfig where
  name_servers : List NameServerConfig
deriving DecidableEq, Repr

/-- Embeds `ResolverConfig::new()`: empty configuration. -/
def ResolverConfig.new : ResolverConfig := ⟨[]⟩

/-- Embeds `ResolverConfig::add_name_server`: push one entry at the end. -/
def ResolverConfig.add_name_server (c : ResolverConfig) (ns : NameServerConfig) :
    ResolverConfig :=
  ⟨c.name_servers ++ [ns]⟩

/-- Embeds `hickory_resolver::config::ResolverOpts`: a representative projection
(number-of-dots heuristic, timeout in seconds, retry attempts), enough to
distinguish system-provided options from the default ones. -/
structure ResolverOpts where
  ndots : Nat
  timeout_secs : Nat
  attempts : Nat
deriving DecidableEq, Repr

/-- Embeds `ResolverOpts::default()` (hickory defaults: ndots 1, timeout 5 s,
2 attempts). -/
def ResolverOpts.default : ResolverOpts := ⟨1, 5, 2⟩

/-- Embeds `std::ffi::OsString`: either valid UTF-8 (decodable to a `String`) or
undecodable platform bytes; distinct tags keep distinct undecodable values. -/
inductive OsString where
  | utf8 (s : String)
  | invalid (tag : Nat)
deriving DecidableEq, Repr

/-- Embeds `OsString::into_string().ok()`: `some` exactly on valid UTF-8. -/
def OsString.intoStringOk : OsString → Option String
  | .utf8 s => some s
  | .invalid _ => none

/-! ### Rust string primitives -/

/-- Rust `char::is_whitespace`: the Unicode `White_Space` property. -/
def rustIsWhitespace (c : Char) : Bool :=
  let n := c.toNat
  (9 ≤ n && n ≤ 13) || n = 32 || n = 0x85 || n = 0xa0 || n = 0x1680 ||
    (0x2000 ≤ n && n ≤ 0x200a) || n = 0x2028 || n = 0x2029 || n = 0x202f ||
    n = 0x205f || n = 0x3000

/-- Drop trailing whitespace (`str::trim_end`). -/
def dropTrailingWs (l : List Char) : List Char :=
  (l.reverse.dropWhile rustIsWhitespace).reverse

/-- Rust `str::trim`: remove leading and trailing whitespace. -/
def rustTrim (l : List Char) : List Char :=
  dropTrailingWs (l.dropWhile rustIsWhitespace)

/-- Split a character list at every newline; the result is always nonempty
and keeps interior and trailing empty pieces. -/
def splitOnNl : List Char → List (List Char)
  | [] => [[]]
  | c :: cs =>
    if c = '\n' then [] :: splitOnNl cs
    else
      match splitOnNl cs with
      | [] => [[c]]
      | p :: ps => (c :: p) :: ps

/-- Remove one trailing carriage return, if present. -/
def stripCr (l : List Char) : List Char :=
  if l.getLast? = some '\r' then l.dropLast else l

/-- Rust `str::lines`: split at `'\n'`; every piece that was terminated by a
newline additionally loses one trailing `'\r'`; a final unterminated piece is
kept verbatim, and a final empty piece (text ending in `'\n'`) is dropped. -/
def rustLines (l : List Char) : List (List Char) :=
  let parts := splitOnNl l
  let front := parts.dropLast.map stripCr
  match parts.getLast? with
  | some last => if last.isEmpty then front else front ++ [last]
  | none => front

/-- One step bound for repeated pattern stripping (fuel-indexed so that the
definition is structural and kernel-reducible). -/
def trimStartMatchesAux (pat : List Char) : Nat → List Char → List Char
  | 0, l => l
  | fuel + 1, l =>
    if pat.isPrefixOf l && !pat.isEmpty then
      trimStartMatchesAux pat fuel (l.drop pat.length)
    else l

/-- Rust `str::trim_start_matches(pat)`: remove REPEATEDLY every occurrence of
`pat` from the start (not just once). -/
def rustTrimStartMatches (l pat : List Char) : List Char :=
  trimStartMatchesAux pat l.length l

/-- Rust `str::contains(pat)`: `pat` occurs as a contiguous substring. -/
def containsSublist : List Char → List Char → Bool
  | [], pat => pat.isPrefixOf []
  | c :: rest, pat => pat.isPrefixOf (c :: rest) || containsSublist rest pat

/-! ### The IP address parser (`std::net::IpAddr::from_str`) -/

/-- Rust `char::to_digit(radix)`. -/
def digitVal (radix : Nat) (c : Char) : Option Nat :=
  let n := c.toNat
  let d :=
    if 48 ≤ n && n ≤ 57 then some (n - 48)
    else if 97 ≤ n && n ≤ 122 then some (n - 97 + 10)
    else if 65 ≤ n && n ≤ 90 then some (n - 65 + 10)
    else none
  match d with
  | some v => if v < radix then some v else none
  | none => none

/-- Digit-consuming loop of `Parser::read_number`: consume the maximal run of
digits of the given radix, failing (`none`) if the accumulated value overflows
`bound` (the checked `u8`/`u16` arithmetic) or the digit count exceeds
`maxDigits`.  Returns the value, the digit count, and the rest. -/
def readNumberAux (radix maxDigits bound : Nat) :
    List Char → Nat → Nat → Option (Nat × Nat × List Char)
  | [], val, cnt => some (val, cnt, [])
  | c :: cs, val, cnt =>
    match digitVal radix c with
    | none => some (val, cnt, c :: cs)
    | some d =>
      let val' := val * radix + d
      if bound < val' then none
      else if maxDigits < cnt + 1 then none
      else readNumberAux radix maxDigits bound cs val' (cnt + 1)

/-- Embeds `Parser::read_number(radix, Some(maxDigits), allowLeadingZeros)` at a target
type with maximum value `bound`: at least one digit, no leading zero on a
multi-digit number unless allowed.  Fails atomically (the caller keeps the
original input on `none`). -/
def readNumber (radix maxDigits bound : Nat) (allowLeadingZeros : Bool)
    (l : List Char) : Option (Nat × List Char) :=
  let hasLeadingZero := l.head? = some '0'
  match readNumberAux radix maxDigits bound l 0 0 with
  | none => none
  | some (val, cnt, rest) =>
    if cnt = 0 then none
    else if !allowLeadingZeros && hasLeadingZero && decide (1 < cnt) then none
    else some (val, rest)

/-- Embeds `Parser::read_given_char`. -/
def readGivenChar (c : Char) : List Char → Option (List Char)
  | [] => none
  | x :: rest => if x = c then some rest else none

/-- One IPv4 octet: decimal, at most 3 digits, value ≤ 255, no leading zero. -/
def readOctet : List Char → Option (Nat × List Char) :=
  readNumber 10 3 255 false

/-- Embeds `Parser::read_ipv4_addr`: four octets separated by dots. -/
def readIpv4 (l : List Char) : Option ((Nat × Nat × Nat × Nat) × List Char) := do
  let (a, l) ← readOctet l
  let l ← readGivenChar '.' l
  let (b, l) ← readOctet l
  let l ← readGivenChar '.' l
  let (c, l) ← readOctet l
  let l ← readGivenChar '.' l
  let (d, l) ← readOctet l
  some ((a, b, c, d), l)

/-- A trailing embedded IPv4 address read as two 16-bit groups
(`u16::from_be_bytes` on the octet pairs). -/
def readIpv4Pair (l : List Char) : Option (List Nat × List Char) :=
  match readIpv4 l with
  | some ((a, b, c, d), rest) => some ([a * 256 + b, c * 256 + d], rest)
  | none => none

/-- Embeds `Parser::read_separator(':', i, inner)`: at every position after the
first, require a colon before the inner reader. -/
def readSep {α : Type} (i : Nat) (inner : List Char → Option (α × List Char))
    (l : List Char) : Option (α × List Char) :=
  if i = 0 then inner l
  else
    match l with
    | ':' :: rest => inner rest
    | _ => none

/-- The `read_groups` helper of `Parser::read_ipv6_addr`.  The first argument
is the number of group slots still available (`limit - i`), the second the
current group index `i` (which controls the leading separator).  Reads as many
colon-separated 16-bit hex groups as possible; at any position with at least
two slots left, a trailing embedded IPv4 address may instead fill two slots
and end the run (second component `true`).  Never fails. -/
def readGroupsAux : Nat → Nat → List Char → (List Nat × Bool × List Char)
  | 0, _, l => ([], false, l)
  | remaining + 1, i, l =>
    match (if 1 ≤ remaining then readSep i readIpv4Pair l else none) with
    | some (pair, rest) => (pair, true, rest)
    | none =>
      match readSep i (readNumber 16 4 65535 true) l with
      | some (g, rest) =>
        let (gs, b, rest') := readGroupsAux remaining (i + 1) rest
        (g :: gs, b, rest')
      | none => ([], false, l)

/-- Embeds `Parser::read_ipv6_addr`: head groups, then—if fewer than eight—`::`,
then tail groups; the zero groups elided by `::` are restored in the middle.
An embedded IPv4 part is only allowed at the end, never before `::`. -/
def readIpv6 (l : List Char) : Option (List Nat × List Char) :=
  let (head, headV4, l1) := readGroupsAux 8 0 l
  if head.length = 8 then some (head, l1)
  else if headV4 then none
  else
    match readGivenChar ':' l1 with
    | none => none
    | some l2 =>
      match readGivenChar ':' l2 with
      | none => none
      | some l3 =>
        let (tail, _, l4) := readGroupsAux (8 - (head.length + 1)) 0 l3
        some (head ++ List.replicate (8 - head.length - tail.length) 0 ++ tail, l4)

/-- Embeds `Parser::read_ip_addr`: try IPv4 first, then IPv6. -/
def readIpAddr (l : List Char) : Option (IpAddr × List Char) :=
  match readIpv4 l with
  | some ((a, b, c, d), rest) => some (.v4 a b c d, rest)
  | none =>
    match readIpv6 l with
    | some (gs, rest) => some (.v6 gs, rest)
    | none => none

/-- Embeds `s.parse::<IpAddr>().ok()`: the reader must consume the whole input. -/
def parseIpAddr (l : List Char) : Option IpAddr :=
  match readIpAddr l with
  | some (ip, []) => some ip
  | _ => none

/-! ### The dns_fallback module -/

/-- The literal directive keyword `"nameserver "` (with trailing space). -/
def nsKeyword : List Char := "nameserver ".toList

/-- The environment fragment `"/com.termux/"` looked up in `$PREFIX`. -/
def termuxFragment : List Char := "/com.termux/".toList

/-- Embeds `should_install_termux_resolver_with(is_android, termux_version, prefix)`:
true iff running on Android, or the Termux version variable is set (any
value), or the install-prefix variable decodes to UTF-8 and contains
`"/com.termux/"`. -/
def should_install_termux_resolver_with (is_android : Bool)
    (termux_version : Option OsString) (prefixVar : Option OsString) : Bool :=
  is_android || termux_version.isSome ||
    (prefixVar.bind OsString.intoStringOk).any
      (fun p => containsSublist p.toList termuxFragment)

/-- Embeds `add_nameserver_for_ip`: append a UDP entry then a TCP entry for `ip`,
both on port 53. -/
def add_nameserver_for_ip (config : ResolverConfig) (ip : IpAddr) :
    ResolverConfig :=
  (config.add_name_server (NameServerConfig.new ⟨ip, 53⟩ .udp)).add_name_server
    (NameServerConfig.new ⟨ip, 53⟩ .tcp)

/-- Body of the `for line in content.lines()` loop of
`add_nameservers_from_resolv_conf`: trim the line; if it starts with
`"nameserver "` and the remainder (after stripping that keyword with
`trim_start_matches` and trimming) parses as an IP address, add the two
entries for it; otherwise leave the configuration unchanged. -/
def processResolvLine (config : ResolverConfig) (line : List Char) :
    ResolverConfig :=
  let line := rustTrim line
  match
    (if nsKeyword.isPrefixOf line then
      parseIpAddr (rustTrim (rustTrimStartMatches line nsKeyword))
    else none) with
  | some ip => add_nameserver_for_ip config ip
  | none => config

/-- Embeds `add_nameservers_from_resolv_conf(content, config)`. -/
def add_nameservers_from_resolv_conf (content : String)
    (config : ResolverConfig) : ResolverConfig :=
  (rustLines content.toList).foldl processResolvLine config

/-- The hardcoded `ResolverConfig::google()` nameserver addresses
(8.8.8.8, 8.8.4.4 and their IPv6 counterparts). -/
def googleIps : List IpAddr :=
  [.v4 8 8 8 8, .v4 8 8 4 4,
   .v6 [0x2001, 0x4860, 0x4860, 0, 0, 0, 0, 0x8888],
   .v6 [0x2001, 0x4860, 0x4860, 0, 0, 0, 0, 0x8844]]

/-- Embeds `ResolverConfig::google()`: a UDP and a TCP entry on port 53 for each of
the well-known Google public resolver addresses. -/
def ResolverConfig.google : ResolverConfig :=
  ⟨googleIps.flatMap (fun ip =>
    [NameServerConfig.new ⟨ip, 53⟩ .udp, NameServerConfig.new ⟨ip, 53⟩ .tcp])⟩

/-- Embeds `resolver_config_and_options()`.  The two I/O probes are explicit inputs:
`systemConf` is the outcome of `read_system_conf()` (`none` = `Err`) and
`resolvContent` the outcome of `read_prefix_resolv_conf()` (`none` = `Err`,
e.g. a missing file). -/
def resolver_config_and_options
    (systemConf : Option (ResolverConfig × ResolverOpts))
    (resolvContent : Option String) : ResolverConfig × ResolverOpts :=
  match systemConf with
  | some (config, options) => (config, options)
  | none =>
    let config := ResolverConfig.new
    let config :=
      match resolvContent with
      | some content => add_nameservers_from_resolv_conf content config
      | none => config
    if config.name_servers.isEmpty then
      (ResolverConfig.google, ResolverOpts.default)
    else (config, ResolverOpts.default)

/-- Embeds `TermuxResolver`: the adapter holds a (shared) handle to the constructed
DNS client; the client is its hostname → IP-addresses lookup behaviour, with
lookup errors drawn from an arbitrary error type `ε`. -/
structure TermuxResolver (ε : Type) where
  resolver : String → Except ε (List IpAddr)

/-- Embeds `<TermuxResolver as Resolve>::resolve`: delegate to the client's
`lookup_ip`; `?` propagates the error verbatim; on success map each IP to a
socket address with port 0. -/
def TermuxResolver.resolve {ε : Type} (self : TermuxResolver ε)
    (name : String) : Except ε (List SocketAddr) :=
  match self.resolver name with
  | .error e => .error e
  | .ok lookup => .ok (lookup.map (fun ip => SocketAddr.mk ip 0))

/-! ### Specification-side helpers

These definitions restate the per-line parsing rule in the spec's vocabulary,
for comparison with the embedded source functions. -/

/-- The two nameserver entries emitted for one parsed IP: UDP then TCP, both
on port 53. -/
def entriesForIp (ip : IpAddr) : List NameServerConfig :=
  [NameServerConfig.new ⟨ip, 53⟩ .udp, NameServerConfig.new ⟨ip, 53⟩ .tcp]

/-- The IP contributed by one line: trim; require the `"nameserver "`
keyword; strip the keyword repeatedly (as `trim_start_matches` does), trim
again, parse. -/
def lineIp (line : List Char) : Option IpAddr :=
  let t := rustTrim line
  if nsKeyword.isPrefixOf t then
    parseIpAddr (rustTrim (rustTrimStartMatches t nsKeyword))
  else none

/-- The entries contributed by one line. -/
def lineNameservers (line : List Char) : List NameServerConfig :=
  match lineIp line with
  | some ip => entriesForIp ip
  | none => []

/-- Claim C2's per-line rule exactly as stated: the keyword is stripped only
ONCE (dropping one occurrence) before the second trim and the parse. -/
def lineNameserversOnceStrip (line : List Char) : List NameServerConfig :=
  let t := rustTrim line
  if nsKeyword.isPrefixOf t then
    match parseIpAddr (rustTrim (t.drop nsKeyword.length)) with
    | some ip => entriesForIp ip
    | none => []
  else []

/-- All IPs successfully parsed from the text, in order of appearance. -/
def parsedIps (content : String) : List IpAddr :=
  (rustLines content.toList).filterMap lineIp

/-! ### Lemmas about the line parser -/

theorem processResolvLine_eq (config : ResolverConfig) (line : List Char) :
    processResolvLine config line =
      match lineIp line with
      | some ip => add_nameserver_for_ip config ip
      | none => config := rfl

theorem processResolvLine_name_servers (config : ResolverConfig)
    (line : List Char) :
    (processResolvLine config line).name_servers =
      config.name_servers ++ lineNameservers line := by
  rw [processResolvLine_eq]
  cases h : lineIp line with
  | none => simp [lineNameservers, h]
  | some ip =>
    simp [lineNameservers, h, add_nameserver_for_ip,
      ResolverConfig.add_name_server, entriesForIp]

theorem foldl_processResolvLine (lines : List (List Char))
    (config : ResolverConfig) :
    (lines.foldl processResolvLine config).name_servers =
      config.name_servers ++ lines.flatMap lineNameservers := by
  induction lines generalizing config with
  | nil => simp
  | cons l ls ih =>
    simp only [List.foldl_cons, List.flatMap_cons, ih,
      processResolvLine_name_servers, List.append_assoc]

theorem add_nameservers_name_servers (content : String)
    (config : ResolverConfig) :
    (add_nameservers_from_resolv_conf content config).name_servers =
      config.name_servers ++
        (rustLines content.toList).flatMap lineNameservers :=
  foldl_processResolvLine _ _

theorem flatMap_filterMap_lineIp (ls : List (List Char)) :
    (ls.filterMap lineIp).flatMap entriesForIp = ls.flatMap lineNameservers := by
  induction ls with
  | nil => rfl
  | cons l ls ih =>
    simp only [List.filterMap_cons, List.flatMap_cons]
    cases h : lineIp l <;> simp [lineNameservers, h, ih]

/-! ### Lemmas about `rustLines` and concatenation -/

theorem splitOnNl_ne_nil (l : List Char) : splitOnNl l ≠ [] := by
  cases l with
  | nil => simp [splitOnNl]
  | cons c cs =>
    simp only [splitOnNl]
    split
    · simp
    · split <;> simp

theorem splitOnNl_append (a b : List Char) :
    splitOnNl (a ++ '\n' :: b) = splitOnNl a ++ splitOnNl b := by
  induction a with
  | nil => simp [splitOnNl]
  | cons c cs ih =>
    obtain ⟨p, ps, hps⟩ := List.exists_cons_of_ne_nil (splitOnNl_ne_nil cs)
    by_cases h : c = '\n'
    · subst h; simp [splitOnNl, ih]
    · simp [splitOnNl, h, ih, hps]

theorem rustIsWhitespace_cr : rustIsWhitespace '\r' = true := by decide

theorem dropTrailingWs_concat_cr (x : List Char) :
    dropTrailingWs (x ++ ['\r']) = dropTrailingWs x := by
  simp [dropTrailingWs, List.dropWhile_cons, rustIsWhitespace_cr]

theorem rustTrim_concat_cr (q : List Char) :
    rustTrim (q ++ ['\r']) = rustTrim q := by
  unfold rustTrim
  rw [List.dropWhile_append]
  split
  · next hemp =>
      rw [List.isEmpty_iff.mp hemp]
      rfl
  · exact dropTrailingWs_concat_cr _

theorem rustTrim_stripCr (p : List Char) : rustTrim (stripCr p) = rustTrim p := by
  unfold stripCr
  split
  · next h =>
      conv_rhs =>
        rw [← List.dropLast_append_getLast? '\r' (Option.mem_def.mpr h)]
      rw [rustTrim_concat_cr]
  · rfl

theorem lineIp_stripCr (p : List Char) : lineIp (stripCr p) = lineIp p := by
  simp only [lineIp, rustTrim_stripCr]

theorem lineNameservers_stripCr (p : List Char) :
    lineNameservers (stripCr p) = lineNameservers p := by
  simp only [lineNameservers, lineIp_stripCr]

theorem rustLines_append (a b : List Char) :
    rustLines (a ++ '\n' :: b) = (splitOnNl a).map stripCr ++ rustLines b := by
  simp only [rustLines, splitOnNl_append,
    List.dropLast_append_of_ne_nil _ (splitOnNl_ne_nil b),
    List.getLast?_append_of_ne_nil _ (splitOnNl_ne_nil b), List.map_append]
  cases hl : (splitOnNl b).getLast? with
  | none => rfl
  | some last =>
    by_cases he : last.isEmpty <;> simp [he, List.append_assoc]

theorem flatMap_map_stripCr (ls : List (List Char)) :
    (ls.map stripCr).flatMap lineNameservers = ls.flatMap lineNameservers := by
  rw [List.flatMap_map]
  simp only [lineNameservers_stripCr]

theorem flatMap_splitOnNl_eq_rustLines (a : List Char) :
    ((splitOnNl a).map stripCr).flatMap lineNameservers =
      (rustLines a).flatMap lineNameservers := by
  obtain ⟨last, hl⟩ : ∃ last, (splitOnNl a).getLast? = some last := by
    cases hq : (splitOnNl a).getLast? with
    | none => exact absurd (List.getLast?_eq_none_iff.mp hq) (splitOnNl_ne_nil a)
    | some x => exact ⟨x, rfl⟩
  have hsplit : (splitOnNl a).dropLast ++ [last] = splitOnNl a :=
    List.dropLast_append_getLast? last (Option.mem_def.mpr hl)
  rw [flatMap_map_stripCr]
  conv_lhs => rw [← hsplit]
  simp only [rustLines, hl, List.flatMap_append]
  have hdrop : (List.map stripCr (splitOnNl a)).dropLast.flatMap lineNameservers
      = (splitOnNl a).dropLast.flatMap lineNameservers := by
    rw [← List.map_dropLast, flatMap_map_stripCr]
  by_cases he : last.isEmpty
  · rw [List.isEmpty_iff.mp he]
    simp [he, lineNameservers, lineIp, rustTrim, dropTrailingWs, nsKeyword,
      hdrop]
  · simp [he, List.flatMap_append, hdrop]

theorem containsSublist_eq_true_iff (hay pat : List Char) :
    containsSublist hay pat = true ↔ pat <:+: hay := by
  induction hay with
  | nil =>
    simp [containsSublist, List.isPrefixOf_iff_prefix, List.infix_nil,
      List.prefix_nil]
  | cons c rest ih =>
    simp [containsSublist, List.isPrefixOf_iff_prefix, ih, List.infix_cons_iff]

/-! ### The claims -/

/-- Claim C1: for every triple of inputs, `should_install_termux_resolver_with`
returns true iff `is_android` is true, or the version variable is present
(any value, including the empty string), or the install-prefix variable is
present and its string value contains the substring `"/com.termux/"`. -/
theorem claim1_shouldUseFallback_iff (a : Bool) (v p : Option String) :
    should_install_termux_resolver_with a (v.map OsString.utf8)
        (p.map OsString.utf8) = true ↔
      (a = true ∨ v.isSome = true ∨
        ∃ s, p = some s ∧ termuxFragment <:+: s.toList) := by
  cases a <;> cases v <;> cases p <;>
    simp [should_install_termux_resolver_with, OsString.intoStringOk,
      containsSublist_eq_true_iff]

/-- Claim C9: an install-prefix value that is not decodable as UTF-8
contributes `false` to the decision: with the other two signals absent the
function returns false, and in general an undecodable prefix behaves exactly
like an absent one. -/
theorem claim9_invalid_utf8_prefix_ignored :
    (∀ t, should_install_termux_resolver_with false none
        (some (OsString.invalid t)) = false) ∧
    (∀ a v t,
      should_install_termux_resolver_with a v (some (OsString.invalid t)) =
        should_install_termux_resolver_with a v none) := by
  exact ⟨fun t => rfl, fun a v t => rfl⟩

/-- Claim C2, counterexample: the claim says the keyword is stripped ONCE,
but `trim_start_matches` strips it repeatedly.  On the line
`"nameserver nameserver 1.1.1.1"` the claim's rule yields no entry (the
once-stripped remainder `"nameserver 1.1.1.1"` is not an IP address), while
the code contributes the two entries for 1.1.1.1 — so the claim's iff fails
on this input. -/
theorem claim2_once_strip_counterexample :
    (add_nameservers_from_resolv_conf "nameserver nameserver 1.1.1.1"
        ResolverConfig.new).name_servers ≠
      (rustLines "nameserver nameserver 1.1.1.1".toList).flatMap
        lineNameserversOnceStrip := by decide

/-- Claim C2 (amended: the keyword is stripped REPEATEDLY, not once): every
line is trimmed; it contributes entries iff the trimmed line starts with
`"nameserver "` and the remainder obtained by repeatedly stripping that
keyword and trimming again parses as an IPv4 or IPv6 address; lines whose
remainder fails to parse, lines with any other first word (comments
included), and blank lines contribute nothing, and no error is possible
(the function is total). -/
theorem claim2_line_processing (content : String) :
    (add_nameservers_from_resolv_conf content ResolverConfig.new).name_servers =
      (rustLines content.toList).flatMap lineNameservers := by
  rw [add_nameservers_name_servers]
  rfl

/-- Claim C3: each successfully parsed IP address emits exactly two adjacent
entries, UDP then TCP, both on port 53; entries appear in the order of their
source lines, appended after any pre-existing entries, and are not
deduplicated. -/
theorem claim3_two_entries_per_ip (content : String) (config : ResolverConfig) :
    (add_nameservers_from_resolv_conf content config).name_servers =
      config.name_servers ++
        (parsedIps content).flatMap (fun ip =>
          [NameServerConfig.new ⟨ip, 53⟩ .udp,
           NameServerConfig.new ⟨ip, 53⟩ .tcp]) := by
  rw [add_nameservers_name_servers, parsedIps, ← flatMap_filterMap_lineIp]
  rfl

/-- Claim C8: parsing the given four-line text yields exactly six entries in
order — UDP and TCP for 1.1.1.1, then for 8.8.8.8, then for 9.9.9.9, all on
port 53. -/
theorem claim8_concrete_parse :
    (add_nameservers_from_resolv_conf
        "nameserver 1.1.1.1\nnameserver 8.8.8.8\n# comment\n  nameserver 9.9.9.9  "
        ResolverConfig.new).name_servers =
      [NameServerConfig.new ⟨.v4 1 1 1 1, 53⟩ .udp,
       NameServerConfig.new ⟨.v4 1 1 1 1, 53⟩ .tcp,
       NameServerConfig.new ⟨.v4 8 8 8 8, 53⟩ .udp,
       NameServerConfig.new ⟨.v4 8 8 8 8, 53⟩ .tcp,
       NameServerConfig.new ⟨.v4 9 9 9 9, 53⟩ .udp,
       NameServerConfig.new ⟨.v4 9 9 9 9, 53⟩ .tcp] := by decide

/-- Claim C10: `add_nameservers_from_resolv_conf` only appends — pre-existing
entries are preserved unchanged in their positions and the appended suffix is
the parse of the text into an empty configuration; and parsing the
newline-joined concatenation of two texts yields the concatenation of their
individual parses. -/
theorem claim10_append_only_and_concat (config : ResolverConfig)
    (s t : String) :
    ((add_nameservers_from_resolv_conf s config).name_servers =
      config.name_servers ++
        (add_nameservers_from_resolv_conf s ResolverConfig.new).name_servers) ∧
    (add_nameservers_from_resolv_conf (s ++ "\n" ++ t)
        ResolverConfig.new).name_servers =
      (add_nameservers_from_resolv_conf s ResolverConfig.new).name_servers ++
        (add_nameservers_from_resolv_conf t ResolverConfig.new).name_servers := by
  constructor
  · rw [add_nameservers_name_servers, add_nameservers_name_servers]
    rfl
  · have htl : (s ++ "\n" ++ t).toList = s.toList ++ '\n' :: t.toList := by
      simp
    rw [add_nameservers_name_servers, add_nameservers_name_servers,
      add_nameservers_name_servers, htl, rustLines_append,
      List.flatMap_append, flatMap_splitOnNl_eq_rustLines]
    rfl

/-- Claim C4: when the system-configuration read succeeds,
`resolver_config_and_options` returns exactly that pair verbatim, and its
result does not depend on the fallback file's content (it is not read, no
hardcoded default is substituted); when the system read fails, the returned
options are the default options, never the (nonexistent) partial system
options. -/
theorem claim4_system_conf_verbatim
    (sys : Option (ResolverConfig × ResolverOpts)) (rc rc' : Option String) :
    (∀ config options, sys = some (config, options) →
      resolver_config_and_options sys rc = (config, options) ∧
      resolver_config_and_options sys rc = resolver_config_and_options sys rc') ∧
    (sys = none →
      (resolver_config_and_options sys rc).2 = ResolverOpts.default) := by
  constructor
  · rintro config options rfl
    exact ⟨rfl, rfl⟩
  · rintro rfl
    unfold resolver_config_and_options
    cases rc <;> simp only <;> split <;> rfl

/-- Witness for claim C4: a concrete successful system read is returned
verbatim (with non-default options), and a concrete failed one yields the
default options. -/
theorem claim4_witness :
    resolver_config_and_options (some (⟨[]⟩, ⟨3, 7, 9⟩))
        (some "nameserver 1.1.1.1") = (⟨[]⟩, ⟨3, 7, 9⟩) ∧
    (resolver_config_and_options none (some "nameserver 1.1.1.1")).2 =
      ResolverOpts.default :=
  ⟨((claim4_system_conf_verbatim (some (⟨[]⟩, ⟨3, 7, 9⟩))
      (some "nameserver 1.1.1.1") none).1 ⟨[]⟩ ⟨3, 7, 9⟩ rfl).1,
   (claim4_system_conf_verbatim none (some "nameserver 1.1.1.1") none).2 rfl⟩

/-- Claim C5: when the system read fails and the configuration built from the
fallback file content has zero nameserver entries (file missing or parsed to
nothing), the hardcoded Google configuration with default options is
returned. -/
theorem claim5_empty_fallback_uses_google (rc : Option String)
    (h : (match rc with
          | some content =>
            add_nameservers_from_resolv_conf content ResolverConfig.new
          | none => ResolverConfig.new).name_servers = []) :
    resolver_config_and_options none rc =
      (ResolverConfig.google, ResolverOpts.default) := by
  unfold resolver_config_and_options
  cases rc with
  | none => rfl
  | some content =>
    simp only at h ⊢
    rw [if_pos (List.isEmpty_iff.mpr h)]

/-- Witness for claim C5: a fallback file holding only a comment and a blank
line parses to zero entries, and the Google default is then returned. -/
theorem claim5_witness :
    (add_nameservers_from_resolv_conf "# comment\n\n"
        ResolverConfig.new).name_servers = ([] : List NameServerConfig) ∧
    resolver_config_and_options none (some "# comment\n\n") =
      (ResolverConfig.google, ResolverOpts.default) :=
  ⟨by decide, claim5_empty_fallback_uses_google (some "# comment\n\n") (by decide)⟩

/-- Claim C6: for every combination of outcomes of the system probe and of
the fallback-file read (including both failing),
`resolver_config_and_options` returns a configuration-and-options pair — it
is total, no failure is visible to the caller; with both sources failing the
result is the hardcoded default. -/
theorem claim6_total_no_error (sys : Option (ResolverConfig × ResolverOpts))
    (rc : Option String) :
    (∃ config options,
      resolver_config_and_options sys rc = (config, options)) ∧
    resolver_config_and_options none none =
      (ResolverConfig.google, ResolverOpts.default) :=
  ⟨⟨(resolver_config_and_options sys rc).1,
    (resolver_config_and_options sys rc).2, rfl⟩, rfl⟩

/-- Claim C7: `TermuxResolver::resolve` fails iff the underlying client's
lookup fails, propagating exactly the client's error; on success it returns
the looked-up addresses in the same order, each with port 0. -/
theorem claim7_resolve_delegates {ε : Type} (client : TermuxResolver ε)
    (name : String) :
    (∀ e, client.resolve name = .error e ↔ client.resolver name = .error e) ∧
    (∀ ips, client.resolver name = .ok ips →
      client.resolve name = .ok (ips.map (fun ip => SocketAddr.mk ip 0))) := by
  constructor
  · intro e
    unfold TermuxResolver.resolve
    cases h : client.resolver name <;> simp
  · intro ips h
    unfold TermuxResolver.resolve
    rw [h]

/-- Witness for claim C7: a client that succeeds with one address makes
`resolve` return that address with port 0. -/
theorem claim7_witness :
    TermuxResolver.resolve
        (⟨fun _ => Except.ok [IpAddr.v4 93 184 216 34]⟩ : TermuxResolver Unit)
        "example.com" =
      Except.ok [SocketAddr.mk (IpAddr.v4 93 184 216 34) 0] :=
  (claim7_resolve_delegates
      (⟨fun _ => Except.ok [IpAddr.v4 93 184 216 34]⟩ : TermuxResolver Unit)
      "example.com").2 [IpAddr.v4 93 184 216 34] rfl
